import Mathlib

/-!
# Verification of the uCLibraries I2C device driver (I2CDevice.c)

This file gives a shallow embedding of the I2C master driver and its
register-access layer:

* the byte-write primitive `I2CWrite`, embedded as a function of the
  sampled hardware status flags (`SSPState`);
* the register-access layer (`I2CDeviceReadBytes`, `I2CDeviceWriteBytes`
  and the single-byte wrappers), embedded as trace-producing functions
  over an abstract bus environment (`Bus`): every bus condition and byte
  transfer is recorded as a `BusEvent`, and the environment supplies the
  status code of each byte write and the data byte of each byte read;
* the bit-level helpers (`I2CDeviceReadBit`, `I2CDeviceReadBits`,
  `I2CDeviceWriteBit`, `I2CDeviceWriteBits`), embedded as byte-value
  arithmetic over the current register byte, which is exactly what they
  compute on an idealized lossless bus where `I2CDeviceReadByte` returns
  the register's current byte and `I2CDeviceWriteByte` replaces it.

All byte quantities are `Nat` with explicit `% 256` truncation wherever
the C code truncates to `unsigned char`.
-/

namespace I2CDevice

/-! ## Bit-level helpers over the current register byte

On an idealized lossless bus, `I2CDeviceReadByte deviceAddress address`
returns the addressed register's current byte `b`, and
`I2CDeviceWriteByte deviceAddress address v` makes `v` the register's new
byte.  The bit-level helpers below are therefore embedded as functions of
that byte `b`; a write helper returns the new register byte. -/

/-- Embedding of `I2CDeviceReadBit`: reads the register byte and masks one bit:
`return (I2CDeviceReadByte(deviceAddress, address) & (1 << _bit));`.
The result is the raw masked value, not normalized to 0/1. -/
def I2CDeviceReadBit (b bit : Nat) : Nat :=
  b &&& (1 <<< bit)

/-- Embedding of `I2CDeviceWriteBit`: read-modify-write of one bit:
`b = value ? (b | (1 << _bit)) : (b & ~(1 << _bit));`.
For a register byte `b < 256`, the C expression `b & ~(1 << _bit)`
(computed in `int`, then stored into an `unsigned char`) equals
`b &&& (255 ^^^ (1 <<< bit))`, and `b | (1 << _bit)` stored into an
`unsigned char` equals `(b ||| (1 <<< bit)) % 256`. -/
def I2CDeviceWriteBit (b bit value : Nat) : Nat :=
  if value ≠ 0 then (b ||| (1 <<< bit)) % 256
  else b &&& (255 ^^^ (1 <<< bit))

/-- The bit-extraction loop of `I2CDeviceReadBits`:
`for (i = bitStart; i > bitStart - length; i--) r |= (b & (1 << i));`.
`i` is an `unsigned char`, so the decrement wraps modulo 256
(`(i + 255) % 256`), while the guard `i > bitStart - length` is computed
in `int` (the operands are promoted), so the right-hand side can be `-1`.
The loop need not terminate, so it is embedded with a `fuel` bound:
`none` means the loop has not exited within `fuel` iterations. -/
def I2CDeviceReadBitsLoop (b bitStart length : Nat) :
    Nat → Nat → Nat → Option Nat
  | 0, _, _ => none
  | fuel + 1, i, r =>
    if (i : Int) > (bitStart : Int) - (length : Int) then
      I2CDeviceReadBitsLoop b bitStart length fuel ((i + 255) % 256)
        (r ||| (b &&& (1 <<< i)))
    else some r

/-- Embedding of `I2CDeviceReadBits`: runs the extraction loop from `i = bitStart` with
`r = 0`, then right-aligns: `r >>= (bitStart - length + 1);` (the shift
amount is computed in `int`; within the documented contract it is ≥ 0).
`none` means the loop has not exited within `fuel` iterations. -/
def I2CDeviceReadBits (b bitStart length fuel : Nat) : Option Nat :=
  (I2CDeviceReadBitsLoop b bitStart length fuel bitStart 0).map
    (fun r => r >>> ((bitStart : Int) - (length : Int) + 1).toNat)

/-- Embedding of `I2CDeviceWriteBits`: read-modify-write of a bit field:
`mask = (0xFF << (8 - length)) | (0xFF >> (bitStart + length - 1));`
`value <<= (8 - length); value >>= (7 - bitStart);`
`b &= mask; b |= value;`.
The intermediate expressions are computed in `int` and truncated to
`unsigned char` on assignment (`% 256`). -/
def I2CDeviceWriteBits (b bitStart length value : Nat) : Nat :=
  let mask := ((0xFF <<< (8 - length)) ||| (0xFF >>> (bitStart + length - 1))) % 256
  let value1 := (value <<< (8 - length)) % 256
  let value2 := value1 >>> (7 - bitStart)
  (b &&& mask) ||| value2

/-! ## Trace model of the byte-transaction layer

The signalling primitives (`I2CStart`, `I2CRestart`, `I2CStop`, `I2CAck`,
`I2CNotAck`) drive hardware flags and block until completion; at the level
of the register-access layer each one amounts to exactly one bus condition,
recorded here as a `BusEvent`.  The byte primitives `I2CWrite` / `I2CRead`
put one byte on the bus / take one byte from it; their outcomes (the status
code each write returns, the data byte each read yields) are determined by
the environment, modelled by a `Bus`. -/

/-- One observable bus operation issued by the driver. -/
inductive BusEvent where
  | start
  | restart
  | stop
  | ack
  | notAck
  | writeByte (b : Nat)
  | readByte (b : Nat)
deriving DecidableEq

/-- Holds (as `true`) exactly on `BusEvent.stop`. -/
def BusEvent.isStop : BusEvent → Bool
  | .stop => true
  | _ => false

/-- Holds (as `true`) exactly on `BusEvent.writeByte _`. -/
def BusEvent.isWriteByte : BusEvent → Bool
  | .writeByte _ => true
  | _ => false

/-- The bus environment: `writeStatus k` is the status code the `k`-th byte
write returns (0 = acknowledged, 254 = NACK, 255 = collision, matching
`I2CWrite`); `readData k` is the data byte the slave supplies for the
`k`-th byte read. -/
structure Bus where
  writeStatus : Nat → Nat
  readData : Nat → Nat

/-- Driver-visible bus history: the trace of events so far, plus how many
byte writes (`nw`) and byte reads (`nr`) have occurred. -/
structure BusState where
  trace : List BusEvent
  nw : Nat
  nr : Nat
deriving DecidableEq

/-- The state at the start of a transaction: empty trace. -/
def initState : BusState := ⟨[], 0, 0⟩

/-- Embedding of `I2CStart`: sets SEN and busy-waits; one start condition on the bus. -/
def I2CStart (s : BusState) : BusState :=
  { s with trace := s.trace ++ [.start] }

/-- Embedding of `I2CRestart`: sets RSEN and busy-waits; one repeated-start condition. -/
def I2CRestart (s : BusState) : BusState :=
  { s with trace := s.trace ++ [.restart] }

/-- Embedding of `I2CStop`: sets PEN and busy-waits; one stop condition on the bus. -/
def I2CStop (s : BusState) : BusState :=
  { s with trace := s.trace ++ [.stop] }

/-- Embedding of `I2CAck`: ACKDT=0, ACKEN=1, busy-wait; one acknowledge bit. -/
def I2CAck (s : BusState) : BusState :=
  { s with trace := s.trace ++ [.ack] }

/-- Embedding of `I2CNotAck`: ACKDT=1, ACKEN=1, busy-wait; one not-acknowledge bit. -/
def I2CNotAck (s : BusState) : BusState :=
  { s with trace := s.trace ++ [.notAck] }

/-- Trace-level view of `I2CWrite(data_out)`: puts the byte (truncated to
`unsigned char`) on the bus and returns the environment-determined status
code.  The internal status-flag logic of `I2CWrite` is embedded separately
as `I2CWrite` over `SSPState` below. -/
def I2CWriteBus (bus : Bus) (dataOut : Nat) (s : BusState) : BusState × Nat :=
  ({ trace := s.trace ++ [.writeByte (dataOut % 256)], nw := s.nw + 1, nr := s.nr },
    bus.writeStatus s.nw)

/-- Trace-level view of `I2CRead()`: requests one byte from the bus,
blocks until the receive buffer is full, and returns the byte
(an `unsigned char`, hence `% 256`). -/
def I2CReadBus (bus : Bus) (s : BusState) : BusState × Nat :=
  ({ trace := s.trace ++ [.readByte (bus.readData s.nr % 256)], nw := s.nw,
     nr := s.nr + 1 },
    bus.readData s.nr % 256)

/-- The read loop of `I2CDeviceReadBytes`:
`for (i = 0; i < length; i++) { data[i] = I2CRead(); if (i == (length - 1)) I2CNotAck(); else I2CAck(); }`.
The loop body runs exactly `length` times with `i = 0, …, length-1`;
`rem` counts the remaining iterations (initially `length`). -/
def I2CDeviceReadBytesLoop (bus : Bus) (length : Nat) :
    Nat → Nat → List Nat → BusState → BusState × List Nat
  | 0, _, data, s => (s, data)
  | rem + 1, i, data, s =>
    let p := I2CReadBus bus s
    let data1 := data.set i p.2
    let s1 := if i = length - 1 then I2CNotAck p.1 else I2CAck p.1
    I2CDeviceReadBytesLoop bus length rem (i + 1) data1 s1

/-- Embedding of `I2CDeviceReadBytes(deviceAddress, address, length, data)`:
`I2CStart(); I2CWrite(deviceAddress & 0xFE); I2CWrite(address); I2CRestart();
I2CWrite(deviceAddress | 0x01);` then the read loop, then `I2CStop();`.
The status codes of the address-phase writes are discarded (`.1`), exactly
as the C code ignores `I2CWrite`'s return value.  Returns the final bus
state and the caller's buffer after the loop's stores. -/
def I2CDeviceReadBytes (bus : Bus) (deviceAddress address length : Nat)
    (data : List Nat) (s : BusState) : BusState × List Nat :=
  let s1 := I2CStart s
  let s2 := (I2CWriteBus bus (deviceAddress &&& 0xFE) s1).1
  let s3 := (I2CWriteBus bus address s2).1
  let s4 := I2CRestart s3
  let s5 := (I2CWriteBus bus (deviceAddress ||| 0x01) s4).1
  let p := I2CDeviceReadBytesLoop bus length length 0 data s5
  (I2CStop p.1, p.2)

/-- The write loop of `I2CDeviceWriteBytes`:
`for (i = 0; i < length; i++) { I2CWrite(data[i]); }` — the returned status
code is discarded.  `rem` counts the remaining iterations. -/
def I2CDeviceWriteBytesLoop (bus : Bus) (data : List Nat) :
    Nat → Nat → BusState → BusState
  | 0, _, s => s
  | rem + 1, i, s =>
    I2CDeviceWriteBytesLoop bus data rem (i + 1) (I2CWriteBus bus (data.getD i 0) s).1

/-- Embedding of `I2CDeviceWriteBytes(deviceAddress, address, length, data)`:
`I2CStart(); I2CWrite(deviceAddress & 0xFE); I2CWrite(address);` then the
write loop, then `I2CStop();`.  All status codes are discarded and the
function returns nothing to the caller: in the model, only the bus state. -/
def I2CDeviceWriteBytes (bus : Bus) (deviceAddress address length : Nat)
    (data : List Nat) (s : BusState) : BusState :=
  let s1 := I2CStart s
  let s2 := (I2CWriteBus bus (deviceAddress &&& 0xFE) s1).1
  let s3 := (I2CWriteBus bus address s2).1
  let s4 := I2CDeviceWriteBytesLoop bus data length 0 s3
  I2CStop s4

/-- Embedding of `I2CDeviceReadByte`: `unsigned char b = 0; I2CDeviceReadBytes(deviceAddress, address, 1, &b); return b;`. -/
def I2CDeviceReadByte (bus : Bus) (deviceAddress address : Nat)
    (s : BusState) : BusState × Nat :=
  let p := I2CDeviceReadBytes bus deviceAddress address 1 [0] s
  (p.1, p.2.headD 0)

/-- Embedding of `I2CDeviceWriteByte`: `I2CDeviceWriteBytes(deviceAddress, address, 1, &value);`. -/
def I2CDeviceWriteByte (bus : Bus) (deviceAddress address value : Nat)
    (s : BusState) : BusState :=
  I2CDeviceWriteBytes bus deviceAddress address 1 [value] s

/-- A bus that not-acknowledges every byte write (status 254 = NACK). -/
def nackBus : Bus := ⟨fun _ => 254, fun _ => 0⟩

/-- A bus that acknowledges every byte write (status 0). -/
def allAckBus : Bus := ⟨fun _ => 0, fun _ => 0⟩

/-! ## Hardware status model of the byte-write primitive `I2CWrite` -/

/-- The hardware status flags `I2CWrite` samples: `WCOL` (write collision),
the mode-select nibble `SSP1CON1 & 0x0F`, and — at the completion point of
the transfer — `R_W`, `BF` and `ACKSTAT`. -/
structure SSPState where
  wcol : Bool
  sspm : Nat
  rw : Bool
  bf : Bool
  ackstat : Bool
deriving DecidableEq

/-- Embedding of the `I2CWrite(data_out)` status logic: loads `SSP1BUF`; if `WCOL` is set,
returns `(unsigned char)(-1) = 255`.  Otherwise, if the mode nibble is not
0x08 and not 0x0B (not I2C master mode), it releases the clock, waits for
`SSP1IF`, and returns `(unsigned char)(-2) = 254` if `!R_W && !BF`, else 0.
In master mode (nibble 0x08 or 0x0B) it waits for the buffer to empty and
the bus to go idle, then returns 254 if `ACKSTAT` is set (slave did not
acknowledge), else 0. -/
def I2CWrite (hw : SSPState) : Nat :=
  if hw.wcol then 255
  else if hw.sspm ≠ 0x08 ∧ hw.sspm ≠ 0x0B then
    if hw.rw = false ∧ hw.bf = false then 254 else 0
  else if hw.ackstat then 254 else 0

/-- The acknowledge sampling of `I2CWrite`, per mode: outside master mode
the transfer counts as acknowledged unless `!R_W && !BF`; in master mode
(nibble 0x08 or 0x0B) it is acknowledged exactly when `ACKSTAT` is clear. -/
def I2CWriteAckOK (hw : SSPState) : Bool :=
  if hw.sspm ≠ 0x08 ∧ hw.sspm ≠ 0x0B then hw.rw || hw.bf
  else !hw.ackstat

/-- The guard of the bit-extraction loop compares the unsigned counter `i`
(always ≥ 0 after promotion to `int`) against `bitStart - length`; when
`bitStart < length` that bound is negative, so the guard never fails and
the loop never exits, whatever the fuel. -/
lemma I2CDeviceReadBitsLoop_none (b s n : Nat) (h : s < n) :
    ∀ fuel i r, I2CDeviceReadBitsLoop b s n fuel i r = none := by
  intro fuel
  induction fuel with
  | zero => intro i r; rfl
  | succ k ih =>
    intro i r
    have hg : (i : Int) > (s : Int) - (n : Int) := by omega
    simp only [I2CDeviceReadBitsLoop, hg, if_pos]
    exact ih _ _

/-- The write loop of `I2CDeviceWriteBytes` appends one `writeByte` event per
remaining index and never consults the returned status codes. -/
lemma I2CDeviceWriteBytesLoop_spec (bus : Bus) (data : List Nat) :
    ∀ rem i s, I2CDeviceWriteBytesLoop bus data rem i s =
      { trace := s.trace ++ (List.range' i rem).map
          (fun j => BusEvent.writeByte (data.getD j 0 % 256)),
        nw := s.nw + rem, nr := s.nr } := by
  intro rem
  induction rem with
  | zero => intro i s; simp [I2CDeviceWriteBytesLoop]
  | succ k ih =>
    intro i s
    rw [I2CDeviceWriteBytesLoop, ih]
    simp [I2CWriteBus, List.range'_succ, BusState.mk.injEq]
    omega

/-- The read loop of `I2CDeviceReadBytes`: its trace is one
`readByte` event followed by `ack` (or `notAck` on the last index) per
remaining index, and the buffer ends up with the read bytes at positions
`i ≤ j < len` (only within the buffer's length) and its prior contents
elsewhere. -/
lemma I2CDeviceReadBytesLoop_spec (bus : Bus) (len : Nat) :
    ∀ rem i data s, i + rem = len → s.nr = i →
      (I2CDeviceReadBytesLoop bus len rem i data s).1.trace
        = s.trace ++ (List.range' i rem).flatMap
            (fun j => [BusEvent.readByte (bus.readData j % 256),
                       if j = len - 1 then BusEvent.notAck else BusEvent.ack])
      ∧ (I2CDeviceReadBytesLoop bus len rem i data s).1.nw = s.nw
      ∧ (I2CDeviceReadBytesLoop bus len rem i data s).1.nr = s.nr + rem
      ∧ (I2CDeviceReadBytesLoop bus len rem i data s).2.length = data.length
      ∧ ∀ j, (I2CDeviceReadBytesLoop bus len rem i data s).2[j]?
          = if i ≤ j ∧ j < len ∧ j < data.length
            then some (bus.readData j % 256) else data[j]? := by
  intro rem
  induction rem with
  | zero =>
    intro i data s hi hnr
    refine ⟨by simp [I2CDeviceReadBytesLoop], by simp [I2CDeviceReadBytesLoop],
      by simp [I2CDeviceReadBytesLoop], by simp [I2CDeviceReadBytesLoop], ?_⟩
    intro j
    have hc : ¬(i ≤ j ∧ j < len ∧ j < data.length) := by omega
    simp [I2CDeviceReadBytesLoop, hc]
  | succ k ih =>
    intro i data s hi hnr
    rw [I2CDeviceReadBytesLoop]
    have hnr1 : (if i = len - 1 then I2CNotAck (I2CReadBus bus s).1
        else I2CAck (I2CReadBus bus s).1).nr = i + 1 := by
      split <;> simp [I2CNotAck, I2CAck, I2CReadBus, hnr]
    have hnw1 : (if i = len - 1 then I2CNotAck (I2CReadBus bus s).1
        else I2CAck (I2CReadBus bus s).1).nw = s.nw := by
      split <;> simp [I2CNotAck, I2CAck, I2CReadBus]
    have htr : (if i = len - 1 then I2CNotAck (I2CReadBus bus s).1
        else I2CAck (I2CReadBus bus s).1).trace
        = s.trace ++ [BusEvent.readByte (bus.readData i % 256),
            if i = len - 1 then BusEvent.notAck else BusEvent.ack] := by
      split <;> simp_all [I2CNotAck, I2CAck, I2CReadBus, hnr]
    obtain ⟨h1, h2, h3, h4, h5⟩ := ih (i + 1) (data.set i (I2CReadBus bus s).2)
      (if i = len - 1 then I2CNotAck (I2CReadBus bus s).1 else I2CAck (I2CReadBus bus s).1)
      (by omega) hnr1
    refine ⟨?_, ?_, ?_, ?_, ?_⟩
    · rw [h1, htr, List.range'_succ]
      simp
    · rw [h2, hnw1]
    · rw [h3, hnr1, hnr]; omega
    · rw [h4]; simp
    · intro j
      rw [h5 j]
      rcases Nat.lt_trichotomy j i with hj | hj | hj
      · have c1 : ¬(i + 1 ≤ j ∧ j < len ∧ j < (data.set i (I2CReadBus bus s).2).length) := by
          simp only [List.length_set]; omega
        have c2 : ¬(i ≤ j ∧ j < len ∧ j < data.length) := by omega
        rw [if_neg c1, if_neg c2, List.getElem?_set_ne (by omega : i ≠ j)]
      · subst hj
        have c1 : ¬(j + 1 ≤ j ∧ j < len ∧ j < (data.set j (I2CReadBus bus s).2).length) := by
          omega
        rw [if_neg c1]
        by_cases hlen : j < data.length
        · have hc : (j ≤ j ∧ j < len ∧ j < data.length) := by omega
          simp [hc, List.getElem?_set_self hlen, I2CReadBus, hnr]
        · have hc : ¬(j ≤ j ∧ j < len ∧ j < data.length) := by omega
          rw [if_neg hc, List.getElem?_set_self']
          simp [List.getElem?_eq_none (by omega : data.length ≤ j)]
      · have hlen1 : (data.set i (I2CReadBus bus s).2).length = data.length := by simp
        by_cases hc : i ≤ j ∧ j < len ∧ j < data.length
        · have hc1 : (i + 1 ≤ j ∧ j < len ∧ j < (data.set i (I2CReadBus bus s).2).length) := by
            rw [hlen1]; omega
          rw [if_pos hc1, if_pos hc]
        · have hc1 : ¬(i + 1 ≤ j ∧ j < len ∧ j < (data.set i (I2CReadBus bus s).2).length) := by
            rw [hlen1]; omega
          rw [if_neg hc1, if_neg hc, List.getElem?_set_ne (by omega : i ≠ j)]

/-- Mapping a function of `data.getD j 0` over the index range of `data`
is mapping it over `data` itself. -/
lemma range_map_getD {α : Type} (g : Nat → α) :
    ∀ data : List Nat,
      (List.range data.length).map (fun j => g (data.getD j 0)) = data.map g := by
  intro data
  induction data with
  | nil => simp
  | cons d tl ih =>
    simp only [List.length_cons, List.range_succ_eq_map, List.map_cons, List.map_map]
    refine congrArg₂ _ rfl ?_
    have hf : ((fun j => g ((d :: tl).getD j 0)) ∘ Nat.succ)
        = fun j => g (tl.getD j 0) := by
      funext j
      simp [List.getD]
    rw [hf, ih]

/-- Full trace of `I2CDeviceWriteBytes`: start, device address in write
form, register address, one `writeByte` per data index, stop — independent
of every status code the bus returns. -/
lemma I2CDeviceWriteBytes_spec (bus : Bus) (da addr len : Nat)
    (data : List Nat) (s : BusState) :
    I2CDeviceWriteBytes bus da addr len data s =
      { trace := s.trace ++ [BusEvent.start, BusEvent.writeByte ((da &&& 0xFE) % 256),
            BusEvent.writeByte (addr % 256)]
          ++ (List.range len).map (fun j => BusEvent.writeByte (data.getD j 0 % 256))
          ++ [BusEvent.stop],
        nw := s.nw + 2 + len, nr := s.nr } := by
  rw [I2CDeviceWriteBytes]
  rw [I2CDeviceWriteBytesLoop_spec]
  simp [I2CStart, I2CWriteBus, I2CStop, List.range_eq_range', BusState.mk.injEq]

/-- The state after the addressing phase of `I2CDeviceReadBytes`:
start, device address in write form, register address, repeated start,
device address in read form. -/
lemma I2CDeviceReadBytes_addrPhase (bus : Bus) (da addr : Nat) (s : BusState) :
    (I2CWriteBus bus (da ||| 0x01)
        (I2CRestart (I2CWriteBus bus addr
          (I2CWriteBus bus (da &&& 0xFE) (I2CStart s)).1).1)).1
      = { trace := s.trace ++ [BusEvent.start, BusEvent.writeByte ((da &&& 0xFE) % 256),
            BusEvent.writeByte (addr % 256), BusEvent.restart,
            BusEvent.writeByte ((da ||| 0x01) % 256)],
          nw := s.nw + 3, nr := s.nr } := by
  simp [I2CStart, I2CWriteBus, I2CRestart, BusState.mk.injEq]

/-- Full behaviour of `I2CDeviceReadBytes` from a fresh transaction state:
the exact bus trace (with the repeated start between the phases, one
`readByte`+acknowledge pair per index, `notAck` only at the last index)
and the final contents of the caller's buffer. -/
lemma I2CDeviceReadBytes_spec (bus : Bus) (da addr len : Nat)
    (data : List Nat) (s : BusState) (hnr : s.nr = 0) :
    (I2CDeviceReadBytes bus da addr len data s).1.trace
      = s.trace ++ [BusEvent.start, BusEvent.writeByte ((da &&& 0xFE) % 256),
          BusEvent.writeByte (addr % 256), BusEvent.restart,
          BusEvent.writeByte ((da ||| 0x01) % 256)]
        ++ (List.range len).flatMap
            (fun j => [BusEvent.readByte (bus.readData j % 256),
                       if j = len - 1 then BusEvent.notAck else BusEvent.ack])
        ++ [BusEvent.stop]
    ∧ (I2CDeviceReadBytes bus da addr len data s).2.length = data.length
    ∧ ∀ j, (I2CDeviceReadBytes bus da addr len data s).2[j]?
        = if j < len ∧ j < data.length
          then some (bus.readData j % 256) else data[j]? := by
  have hrw := I2CDeviceReadBytes_addrPhase bus da addr s
  obtain ⟨h1, h2, h3, h4, h5⟩ := I2CDeviceReadBytesLoop_spec bus len len 0 data
    { trace := s.trace ++ [BusEvent.start, BusEvent.writeByte ((da &&& 0xFE) % 256),
        BusEvent.writeByte (addr % 256), BusEvent.restart,
        BusEvent.writeByte ((da ||| 0x01) % 256)],
      nw := s.nw + 3, nr := s.nr } (by omega) hnr
  refine ⟨?_, ?_, ?_⟩
  · show (I2CStop (I2CDeviceReadBytesLoop bus len len 0 data _).1).trace = _
    rw [hrw, I2CStop]
    rw [h1]
    simp [List.range_eq_range']
  · show (I2CDeviceReadBytesLoop bus len len 0 data _).2.length = _
    rw [hrw, h4]
  · intro j
    show (I2CDeviceReadBytesLoop bus len len 0 data _).2[j]? = _
    rw [hrw, h5 j]
    simp

/-- The read loop never consults the write-status environment: buses that
agree on `readData` drive it identically. -/
lemma I2CDeviceReadBytesLoop_congr (bus bus' : Bus)
    (h : bus.readData = bus'.readData) (len : Nat) :
    ∀ rem i data s, I2CDeviceReadBytesLoop bus len rem i data s
      = I2CDeviceReadBytesLoop bus' len rem i data s := by
  intro rem
  induction rem with
  | zero => intro i data s; rfl
  | succ k ih =>
    intro i data s
    rw [I2CDeviceReadBytesLoop, I2CDeviceReadBytesLoop]
    simp only [I2CReadBus, h]
    exact ih _ _ _

/-- Lemma that `I2CDeviceReadBytes` discards every write-status code: its entire
result only depends on the bus through `readData`. -/
lemma I2CDeviceReadBytes_congr (bus bus' : Bus)
    (h : bus.readData = bus'.readData) (da addr len : Nat)
    (data : List Nat) (s : BusState) :
    I2CDeviceReadBytes bus da addr len data s
      = I2CDeviceReadBytes bus' da addr len data s := by
  simp only [I2CDeviceReadBytes, I2CWriteBus]
  rw [I2CDeviceReadBytesLoop_congr bus bus' h]

/-- The per-byte segment of a read trace contains no stop condition. -/
lemma countP_isStop_readSegment (bus : Bus) (len : Nat) :
    ((List.range len).flatMap
        (fun j => [BusEvent.readByte (bus.readData j % 256),
                   if j = len - 1 then BusEvent.notAck else BusEvent.ack])).countP
      BusEvent.isStop = 0 := by
  rw [List.countP_eq_zero]
  intro a ha
  rw [List.mem_flatMap] at ha
  obtain ⟨j, _, hmem⟩ := ha
  have : a = BusEvent.readByte (bus.readData j % 256)
      ∨ a = (if j = len - 1 then BusEvent.notAck else BusEvent.ack) := by
    simpa using hmem
  rcases this with rfl | rfl
  · simp [BusEvent.isStop]
  · split <;> simp [BusEvent.isStop]

/-- The data segment of a write trace contains no stop condition. -/
lemma countP_isStop_writeSegment (data : List Nat) (len : Nat) :
    ((List.range len).map
        (fun j => BusEvent.writeByte (data.getD j 0 % 256))).countP
      BusEvent.isStop = 0 := by
  rw [List.countP_eq_zero]
  intro a ha
  rw [List.mem_map] at ha
  obtain ⟨j, _, rfl⟩ := ha
  simp [BusEvent.isStop]

/-- C1: the claimed WriteBits/ReadBits round trip fails on the code.  With
prior register byte 0xFF, `bitStart = 7`, `length = 1` (a contract input)
and `value = 0`: the write produces register byte 0x81, so the immediate
`ReadBits(addr, reg, 7, 1)` returns 1, not `0 mod 2^1 = 0`; moreover bit 1,
which lies outside the field `[7,7]`, is changed from 1 to 0 instead of
being preserved (the mask `(0xFF << (8-length)) | (0xFF >> (bitStart+length-1))`
evaluates to 0x81 rather than the field complement 0x7F). -/
theorem I2CDeviceWriteBits_mask_bug :
    I2CDeviceWriteBits 0xFF 7 1 0 = 0x81 ∧
    I2CDeviceReadBits (I2CDeviceWriteBits 0xFF 7 1 0) 7 1 8 = some 1 ∧
    some (1 : Nat) ≠ some (0 % 2 ^ 1) ∧
    Nat.testBit 0xFF 1 = true ∧
    Nat.testBit (I2CDeviceWriteBits 0xFF 7 1 0) 1 = false := by
  decide

/-- C2: the bit-extraction loop of `I2CDeviceReadBits` does NOT terminate on
all contract inputs.  For `bitStart = 0`, `length = 1` (inside the contract
`length ∈ [1,8]`, `bitStart ∈ [length-1, 7]`), the guard
`i > bitStart - length` compares the unsigned counter (always ≥ 0) against
-1 and never fails: no fuel bound makes the loop exit, for any register
byte `b`. -/
theorem I2CDeviceReadBits_bit0_diverges (b fuel : Nat) :
    I2CDeviceReadBits b 0 1 fuel = none := by
  simp [I2CDeviceReadBits,
    I2CDeviceReadBitsLoop_none b 0 1 (by omega)]

/-- C3 counterexample: on a bus that not-acknowledges every byte write
(`nackBus`, status 254 = NACK), `I2CDeviceWriteBytes` of one data byte
still transmits the register address and the data byte after the NACKed
device-address write: the trace contains three byte writes, not one.  The
claimed abandonment mid-sequence does not happen — the status codes are
never examined. -/
theorem I2CDeviceWriteBytes_nack_not_abandoned :
    nackBus.writeStatus 0 = 254
    ∧ (I2CDeviceWriteBytes nackBus 0xB0 0x00 1 [0x10] initState).trace
        = [BusEvent.start, BusEvent.writeByte 0xB0, BusEvent.writeByte 0x00,
           BusEvent.writeByte 0x10, BusEvent.stop]
    ∧ (I2CDeviceWriteBytes nackBus 0xB0 0x00 1 [0x10] initState).trace.countP
        BusEvent.isWriteByte = 3 := by
  decide

/-- C3 amended: when some byte write of an `I2CDeviceWriteBytes` call
returns the NACK status, the transaction is NOT abandoned: the status code
is ignored, every remaining byte is still transmitted in order, and Stop
is still issued at the end of the full sequence. -/
theorem I2CDeviceWriteBytes_continues_after_nack (bus : Bus)
    (da addr len k : Nat) (data : List Nat)
    (_hnack : bus.writeStatus k = 254) (hd : data.length = len) :
    (I2CDeviceWriteBytes bus da addr len data initState).trace
      = [BusEvent.start, BusEvent.writeByte ((da &&& 0xFE) % 256),
         BusEvent.writeByte (addr % 256)]
        ++ data.map (fun b => BusEvent.writeByte (b % 256))
        ++ [BusEvent.stop]
    ∧ (I2CDeviceWriteBytes bus da addr len data initState).trace.getLast?
        = some BusEvent.stop := by
  have htr := I2CDeviceWriteBytes_spec bus da addr len data initState
  subst hd
  rw [range_map_getD (fun b => BusEvent.writeByte (b % 256)) data] at htr
  constructor
  · rw [htr]
    simp [initState]
  · rw [htr]
    exact List.getLast?_concat _

/-- C3 amended, witness at a concrete input: all-NACK bus, one data byte. -/
theorem I2CDeviceWriteBytes_continues_after_nack_witness :
    nackBus.writeStatus 0 = 254 ∧ ([0x10] : List Nat).length = 1
    ∧ ((I2CDeviceWriteBytes nackBus 0xB0 0x00 1 [0x10] initState).trace
        = [BusEvent.start, BusEvent.writeByte ((0xB0 &&& 0xFE) % 256),
           BusEvent.writeByte (0x00 % 256)]
          ++ ([0x10] : List Nat).map (fun b => BusEvent.writeByte (b % 256))
          ++ [BusEvent.stop]
      ∧ (I2CDeviceWriteBytes nackBus 0xB0 0x00 1 [0x10] initState).trace.getLast?
          = some BusEvent.stop) :=
  ⟨rfl, rfl, I2CDeviceWriteBytes_continues_after_nack nackBus 0xB0 0x00 1 0 [0x10] rfl rfl⟩

/-- C4: for `length ≥ 1` and a buffer at least `length` long,
`I2CDeviceReadBytes` emits exactly: Start; the device address with the
direction bit cleared (write); the register address; Restart (no stop);
the device address with the direction bit set (read); then `length` byte
reads, each followed by Ack except the final one, which is followed by
exactly one NotAck; then Stop.  Each read byte is stored into `data[i]`
and the rest of the buffer is untouched. -/
theorem I2CDeviceReadBytes_sequence (bus : Bus) (da addr len : Nat)
    (data : List Nat) (_hlen : 1 ≤ len) (hbuf : len ≤ data.length) :
    (I2CDeviceReadBytes bus da addr len data initState).1.trace
      = [BusEvent.start, BusEvent.writeByte ((da &&& 0xFE) % 256),
         BusEvent.writeByte (addr % 256), BusEvent.restart,
         BusEvent.writeByte ((da ||| 0x01) % 256)]
        ++ (List.range len).flatMap
            (fun j => [BusEvent.readByte (bus.readData j % 256),
                       if j = len - 1 then BusEvent.notAck else BusEvent.ack])
        ++ [BusEvent.stop]
    ∧ (∀ j, j < len →
        (I2CDeviceReadBytes bus da addr len data initState).2[j]?
          = some (bus.readData j % 256))
    ∧ (∀ j, len ≤ j →
        (I2CDeviceReadBytes bus da addr len data initState).2[j]? = data[j]?) := by
  obtain ⟨h1, h2, h3⟩ := I2CDeviceReadBytes_spec bus da addr len data initState rfl
  refine ⟨?_, ?_, ?_⟩
  · rw [h1]
    simp [initState]
  · intro j hj
    rw [h3 j]
    have : j < len ∧ j < data.length := ⟨hj, by omega⟩
    rw [if_pos this]
  · intro j hj
    rw [h3 j]
    have : ¬(j < len ∧ j < data.length) := by omega
    rw [if_neg this]

/-- C4, witness at a concrete input: two-byte read on the all-ACK bus. -/
theorem I2CDeviceReadBytes_sequence_witness :
    1 ≤ 2 ∧ 2 ≤ ([7, 7] : List Nat).length
    ∧ ((I2CDeviceReadBytes allAckBus 0xB0 0x00 2 [7, 7] initState).1.trace
        = [BusEvent.start, BusEvent.writeByte ((0xB0 &&& 0xFE) % 256),
           BusEvent.writeByte (0x00 % 256), BusEvent.restart,
           BusEvent.writeByte ((0xB0 ||| 0x01) % 256)]
          ++ (List.range 2).flatMap
              (fun j => [BusEvent.readByte (allAckBus.readData j % 256),
                         if j = 2 - 1 then BusEvent.notAck else BusEvent.ack])
          ++ [BusEvent.stop]
      ∧ (∀ j, j < 2 →
          (I2CDeviceReadBytes allAckBus 0xB0 0x00 2 [7, 7] initState).2[j]?
            = some (allAckBus.readData j % 256))
      ∧ (∀ j, 2 ≤ j →
          (I2CDeviceReadBytes allAckBus 0xB0 0x00 2 [7, 7] initState).2[j]?
            = ([7, 7] : List Nat)[j]?)) :=
  ⟨by decide, by decide,
    I2CDeviceReadBytes_sequence allAckBus 0xB0 0x00 2 [7, 7] (by decide) (by decide)⟩

/-- C5: when every byte write is acknowledged, `I2CDeviceWriteBytes`
emits exactly: Start; the device address with the direction bit cleared;
the register address; the data bytes in order; Stop.  In particular, for
device address in write form 0xB0, register 0x00 and single value 0x10,
the trace is Start, Write(0xB0), Write(0x00), Write(0x10), Stop. -/
theorem I2CDeviceWriteBytes_sequence (bus : Bus) (da addr len : Nat)
    (data : List Nat) (_hack : ∀ k, bus.writeStatus k = 0) (hd : data.length = len) :
    (I2CDeviceWriteBytes bus da addr len data initState).trace
      = [BusEvent.start, BusEvent.writeByte ((da &&& 0xFE) % 256),
         BusEvent.writeByte (addr % 256)]
        ++ data.map (fun b => BusEvent.writeByte (b % 256))
        ++ [BusEvent.stop]
    ∧ (I2CDeviceWriteBytes allAckBus 0xB0 0x00 1 [0x10] initState).trace
        = [BusEvent.start, BusEvent.writeByte 0xB0, BusEvent.writeByte 0x00,
           BusEvent.writeByte 0x10, BusEvent.stop] := by
  constructor
  · have htr := I2CDeviceWriteBytes_spec bus da addr len data initState
    subst hd
    rw [range_map_getD (fun b => BusEvent.writeByte (b % 256)) data] at htr
    rw [htr]
    simp [initState]
  · decide

/-- C5, witness at a concrete input: the pot-device scenario itself. -/
theorem I2CDeviceWriteBytes_sequence_witness :
    (∀ k, allAckBus.writeStatus k = 0) ∧ ([0x10] : List Nat).length = 1
    ∧ ((I2CDeviceWriteBytes allAckBus 0xB0 0x00 1 [0x10] initState).trace
        = [BusEvent.start, BusEvent.writeByte ((0xB0 &&& 0xFE) % 256),
           BusEvent.writeByte (0x00 % 256)]
          ++ ([0x10] : List Nat).map (fun b => BusEvent.writeByte (b % 256))
          ++ [BusEvent.stop]
      ∧ (I2CDeviceWriteBytes allAckBus 0xB0 0x00 1 [0x10] initState).trace
          = [BusEvent.start, BusEvent.writeByte 0xB0, BusEvent.writeByte 0x00,
             BusEvent.writeByte 0x10, BusEvent.stop]) :=
  ⟨fun _ => rfl, rfl,
    I2CDeviceWriteBytes_sequence allAckBus 0xB0 0x00 1 [0x10] (fun _ => rfl) rfl⟩

/-- C6: regardless of which byte-level writes report NACK or collision,
both multi-byte operations issue exactly one Stop condition, as the last
event of the call, and surface nothing about byte failures to the caller:
their entire caller-visible result is unchanged when the write-status
responses of the bus are replaced arbitrarily (`bus'` agrees with `bus`
only on the read data). -/
theorem I2CDeviceBytes_stop_once_and_silent (bus bus' : Bus)
    (da addr len : Nat) (data : List Nat)
    (hr : bus.readData = bus'.readData) :
    (I2CDeviceWriteBytes bus da addr len data initState).trace.countP
        BusEvent.isStop = 1
    ∧ (I2CDeviceWriteBytes bus da addr len data initState).trace.getLast?
        = some BusEvent.stop
    ∧ (I2CDeviceReadBytes bus da addr len data initState).1.trace.countP
        BusEvent.isStop = 1
    ∧ (I2CDeviceReadBytes bus da addr len data initState).1.trace.getLast?
        = some BusEvent.stop
    ∧ I2CDeviceWriteBytes bus da addr len data initState
        = I2CDeviceWriteBytes bus' da addr len data initState
    ∧ I2CDeviceReadBytes bus da addr len data initState
        = I2CDeviceReadBytes bus' da addr len data initState := by
  obtain ⟨hr1, _, _⟩ := I2CDeviceReadBytes_spec bus da addr len data initState rfl
  refine ⟨?_, ?_, ?_, ?_, ?_, ?_⟩
  · rw [I2CDeviceWriteBytes_spec]
    simp [List.countP_append, countP_isStop_writeSegment, List.countP_cons,
      BusEvent.isStop, initState]
  · rw [I2CDeviceWriteBytes_spec]
    exact List.getLast?_concat _
  · rw [hr1]
    simp [List.countP_append, countP_isStop_readSegment, List.countP_cons,
      BusEvent.isStop, initState]
  · rw [hr1]
    exact List.getLast?_concat _
  · rw [I2CDeviceWriteBytes_spec, I2CDeviceWriteBytes_spec]
  · exact I2CDeviceReadBytes_congr bus bus' hr da addr len data initState

/-- C6, witness at a concrete input: the all-NACK bus against the all-ACK
bus (they agree on read data), two-byte operations. -/
theorem I2CDeviceBytes_stop_once_and_silent_witness :
    nackBus.readData = allAckBus.readData
    ∧ ((I2CDeviceWriteBytes nackBus 0xB0 0x00 2 [1, 2] initState).trace.countP
          BusEvent.isStop = 1
      ∧ (I2CDeviceWriteBytes nackBus 0xB0 0x00 2 [1, 2] initState).trace.getLast?
          = some BusEvent.stop
      ∧ (I2CDeviceReadBytes nackBus 0xB0 0x00 2 [1, 2] initState).1.trace.countP
          BusEvent.isStop = 1
      ∧ (I2CDeviceReadBytes nackBus 0xB0 0x00 2 [1, 2] initState).1.trace.getLast?
          = some BusEvent.stop
      ∧ I2CDeviceWriteBytes nackBus 0xB0 0x00 2 [1, 2] initState
          = I2CDeviceWriteBytes allAckBus 0xB0 0x00 2 [1, 2] initState
      ∧ I2CDeviceReadBytes nackBus 0xB0 0x00 2 [1, 2] initState
          = I2CDeviceReadBytes allAckBus 0xB0 0x00 2 [1, 2] initState) :=
  ⟨rfl, I2CDeviceBytes_stop_once_and_silent nackBus allAckBus 0xB0 0x00 2 [1, 2] rfl⟩

/-- C10: with `length = 0`, both operations still perform the complete
addressing sequence and the terminating Stop, transfer no data bytes, emit
no Ack or NotAck, and leave the caller's buffer entirely unchanged. -/
theorem I2CDeviceBytes_length_zero (bus : Bus) (da addr : Nat)
    (data : List Nat) :
    (I2CDeviceReadBytes bus da addr 0 data initState).1.trace
      = [BusEvent.start, BusEvent.writeByte ((da &&& 0xFE) % 256),
         BusEvent.writeByte (addr % 256), BusEvent.restart,
         BusEvent.writeByte ((da ||| 0x01) % 256), BusEvent.stop]
    ∧ (I2CDeviceReadBytes bus da addr 0 data initState).2 = data
    ∧ (I2CDeviceWriteBytes bus da addr 0 data initState).trace
      = [BusEvent.start, BusEvent.writeByte ((da &&& 0xFE) % 256),
         BusEvent.writeByte (addr % 256), BusEvent.stop] := by
  obtain ⟨h1, h2, h3⟩ := I2CDeviceReadBytes_spec bus da addr 0 data initState rfl
  refine ⟨?_, ?_, ?_⟩
  · rw [h1]
    simp [initState]
  · apply List.ext_getElem?
    intro j
    rw [h3 j]
    simp
  · rw [I2CDeviceWriteBytes_spec]
    simp [initState]

/-- Masking with a single bit: `x &&& (1 <<< k)` is `2 ^ k` when bit `k`
of `x` is set, and 0 otherwise. -/
lemma and_one_shiftLeft (x k : Nat) :
    x &&& (1 <<< k) = if Nat.testBit x k then 2 ^ k else 0 := by
  apply Nat.eq_of_testBit_eq
  intro j
  by_cases hj : j = k
  · subst hj
    by_cases hx : x.testBit j <;>
      simp [Nat.one_shiftLeft, Nat.testBit_two_pow, hx]
  · have h2 : Nat.testBit (2 ^ k) j = false :=
      Nat.testBit_two_pow_of_ne (fun h => hj h.symm)
    rw [Nat.testBit_and, Nat.one_shiftLeft, h2]
    split <;> simp [h2]

/-- Pointwise effect of `I2CDeviceWriteBit` on a register byte `b < 256`
with a bit position inside the byte: bit `bit` becomes the truth value of
`value`, every other bit keeps its prior value. -/
lemma I2CDeviceWriteBit_testBit (b bit v j : Nat) (hb : b < 256) (hbit : bit ≤ 7) :
    Nat.testBit (I2CDeviceWriteBit b bit v) j
      = if j = bit then decide (v ≠ 0) else Nat.testBit b j := by
  unfold I2CDeviceWriteBit
  by_cases hv : v ≠ 0
  · rw [if_pos hv]
    have hlt : b ||| 1 <<< bit < 256 := by
      have h2 : (1 <<< bit : Nat) < 256 := by
        rw [Nat.one_shiftLeft]
        calc 2 ^ bit ≤ 2 ^ 7 := Nat.pow_le_pow_right (by omega) hbit
          _ < 256 := by omega
      exact Nat.or_lt_two_pow (n := 8) hb h2
    rw [Nat.mod_eq_of_lt hlt]
    by_cases hj : j = bit
    · subst hj
      rw [Nat.testBit_or, Nat.one_shiftLeft, Nat.testBit_two_pow_self, if_pos rfl,
        Bool.or_true]
      exact (decide_eq_true hv).symm
    · rw [Nat.testBit_or, Nat.one_shiftLeft,
        Nat.testBit_two_pow_of_ne (fun h => hj h.symm), if_neg hj]
      exact Bool.or_false _
  · rw [if_neg hv]
    have h255 : (255 : Nat) = 2 ^ 8 - 1 := by norm_num
    by_cases hj : j = bit
    · subst hj
      rw [Nat.testBit_and, Nat.testBit_xor, Nat.one_shiftLeft, h255,
        Nat.testBit_two_pow_sub_one, Nat.testBit_two_pow_self, if_pos rfl]
      simp [hv, (by omega : j < 8)]
    · rw [Nat.testBit_and, Nat.testBit_xor, Nat.one_shiftLeft, h255,
        Nat.testBit_two_pow_sub_one, Nat.testBit_two_pow_of_ne (fun h => hj h.symm),
        if_neg hj]
      by_cases hj8 : j < 8
      · simp [hj8]
      · have hbf : Nat.testBit b j = false :=
          Nat.testBit_eq_false_of_lt (lt_of_lt_of_le hb (by
            calc (256 : Nat) = 2 ^ 8 := by norm_num
              _ ≤ 2 ^ j := Nat.pow_le_pow_right (by omega) (by omega)))
        simp [hbf, hj8]

/-- C7: `I2CWrite` returns one of exactly three pairwise-distinct status
codes: 255 (`(unsigned char)(-1)`) on a write collision, 254
(`(unsigned char)(-2)`) when the transfer is not acknowledged, and 0 on
success — and 0 is returned exactly when no collision occurred and the
mode-dependent acknowledge sampling (`I2CWriteAckOK`) reports
acknowledged. -/
theorem I2CWrite_status_codes (hw : SSPState) :
    (I2CWrite hw = 0 ∨ I2CWrite hw = 254 ∨ I2CWrite hw = 255)
    ∧ (hw.wcol = true → I2CWrite hw = 255)
    ∧ (hw.wcol = false → I2CWriteAckOK hw = false → I2CWrite hw = 254)
    ∧ (I2CWrite hw = 0 ↔ hw.wcol = false ∧ I2CWriteAckOK hw = true)
    ∧ (255 : Nat) ≠ 0 ∧ (254 : Nat) ≠ 0 ∧ (255 : Nat) ≠ 254 := by
  obtain ⟨wcol, sspm, rwFlag, bfFlag, ackFlag⟩ := hw
  by_cases hm : sspm ≠ 0x08 ∧ sspm ≠ 0x0B <;>
    cases wcol <;> cases rwFlag <;> cases bfFlag <;> cases ackFlag <;>
      simp_all [I2CWrite, I2CWriteAckOK]
  all_goals omega

/-- C8: on an idealized lossless bus, writing bit `bit` of a register byte
`b < 256` with a nonzero `value` and reading it back yields the set bit
(`2 ^ bit`, in particular nonzero); writing it with 0 and reading it back
yields 0; and every other bit position of the register byte is unaffected
by either write. -/
theorem I2CDeviceWriteBit_ReadBit_roundTrip (b bit v : Nat)
    (hb : b < 256) (hbit : bit ≤ 7) (hv : v ≠ 0) :
    I2CDeviceReadBit (I2CDeviceWriteBit b bit v) bit = 2 ^ bit
    ∧ I2CDeviceReadBit (I2CDeviceWriteBit b bit v) bit ≠ 0
    ∧ I2CDeviceReadBit (I2CDeviceWriteBit b bit 0) bit = 0
    ∧ (∀ j, j ≠ bit →
        Nat.testBit (I2CDeviceWriteBit b bit v) j = Nat.testBit b j
        ∧ Nat.testBit (I2CDeviceWriteBit b bit 0) j = Nat.testBit b j) := by
  have hset := I2CDeviceWriteBit_testBit b bit v
  have hclr := I2CDeviceWriteBit_testBit b bit 0
  refine ⟨?_, ?_, ?_, ?_⟩
  · rw [I2CDeviceReadBit, and_one_shiftLeft, hset bit hb hbit, if_pos rfl]
    simp [hv]
  · rw [I2CDeviceReadBit, and_one_shiftLeft, hset bit hb hbit, if_pos rfl]
    simp [hv]
  · rw [I2CDeviceReadBit, and_one_shiftLeft, hclr bit hb hbit, if_pos rfl]
    simp
  · intro j hj
    exact ⟨by rw [hset j hb hbit, if_neg hj], by rw [hclr j hb hbit, if_neg hj]⟩

/-- C8, witness at a concrete input: register byte 0xAA, bit 0, value 1. -/
theorem I2CDeviceWriteBit_ReadBit_roundTrip_witness :
    (0xAA : Nat) < 256 ∧ (0 : Nat) ≤ 7 ∧ (1 : Nat) ≠ 0
    ∧ (I2CDeviceReadBit (I2CDeviceWriteBit 0xAA 0 1) 0 = 2 ^ 0
      ∧ I2CDeviceReadBit (I2CDeviceWriteBit 0xAA 0 1) 0 ≠ 0
      ∧ I2CDeviceReadBit (I2CDeviceWriteBit 0xAA 0 0) 0 = 0
      ∧ (∀ j, j ≠ 0 →
          Nat.testBit (I2CDeviceWriteBit 0xAA 0 1) j = Nat.testBit 0xAA j
          ∧ Nat.testBit (I2CDeviceWriteBit 0xAA 0 0) j = Nat.testBit 0xAA j)) :=
  ⟨by decide, by decide, by decide,
    I2CDeviceWriteBit_ReadBit_roundTrip 0xAA 0 1 (by decide) (by decide) (by decide)⟩

/-- C9: `I2CDeviceReadBit` returns the register byte masked with
`1 << p`: the unnormalized value `2 ^ p` when the bit is set (never the
normalized 1 for `p ≠ 0`), and 0 exactly when the bit is clear — reliable
only as zero/nonzero, not as an equality comparison with 1. -/
theorem I2CDeviceReadBit_unnormalized (b p : Nat) (_hb : b < 256) (_hp : p ≤ 7) :
    I2CDeviceReadBit b p = b &&& (1 <<< p)
    ∧ (Nat.testBit b p = true → I2CDeviceReadBit b p = 2 ^ p)
    ∧ (p ≠ 0 → I2CDeviceReadBit b p ≠ 1)
    ∧ (I2CDeviceReadBit b p = 0 ↔ Nat.testBit b p = false)
    ∧ I2CDeviceReadBit 0x80 7 = 0x80 := by
  refine ⟨rfl, ?_, ?_, ?_, by decide⟩
  · intro h
    rw [I2CDeviceReadBit, and_one_shiftLeft, if_pos h]
  · intro hp0
    rw [I2CDeviceReadBit, and_one_shiftLeft]
    split
    · exact (Nat.one_lt_two_pow hp0).ne'
    · omega
  · rw [I2CDeviceReadBit, and_one_shiftLeft]
    by_cases h : Nat.testBit b p
    · rw [if_pos h]
      simp [h]
    · rw [if_neg h]
      simp [h]

/-- C9, witness at a concrete input: register byte 0x80, bit position 7. -/
theorem I2CDeviceReadBit_unnormalized_witness :
    (0x80 : Nat) < 256 ∧ (7 : Nat) ≤ 7
    ∧ (I2CDeviceReadBit 0x80 7 = 0x80 &&& (1 <<< 7)
      ∧ (Nat.testBit 0x80 7 = true → I2CDeviceReadBit 0x80 7 = 2 ^ 7)
      ∧ ((7 : Nat) ≠ 0 → I2CDeviceReadBit 0x80 7 ≠ 1)
      ∧ (I2CDeviceReadBit 0x80 7 = 0 ↔ Nat.testBit 0x80 7 = false)
      ∧ I2CDeviceReadBit 0x80 7 = 0x80) :=
  ⟨by decide, by decide,
    I2CDeviceReadBit_unnormalized 0x80 7 (by decide) (by decide)⟩

/-- C2, witness: no concrete fuel bound (here 1000) makes the loop exit. -/
theorem I2CDeviceReadBits_bit0_diverges_witness :
    I2CDeviceReadBits 0xAB 0 1 1000 = none :=
  I2CDeviceReadBits_bit0_diverges 0xAB 1000

/-- C7, witness at a concrete hardware state: master mode (nibble 0x08),
no collision, acknowledge received. -/
theorem I2CWrite_status_codes_witness :
    (I2CWrite ⟨false, 8, false, false, false⟩ = 0
      ∨ I2CWrite ⟨false, 8, false, false, false⟩ = 254
      ∨ I2CWrite ⟨false, 8, false, false, false⟩ = 255)
    ∧ (SSPState.wcol ⟨false, 8, false, false, false⟩ = true
        → I2CWrite ⟨false, 8, false, false, false⟩ = 255)
    ∧ (SSPState.wcol ⟨false, 8, false, false, false⟩ = false
        → I2CWriteAckOK ⟨false, 8, false, false, false⟩ = false
        → I2CWrite ⟨false, 8, false, false, false⟩ = 254)
    ∧ (I2CWrite ⟨false, 8, false, false, false⟩ = 0
        ↔ SSPState.wcol ⟨false, 8, false, false, false⟩ = false
          ∧ I2CWriteAckOK ⟨false, 8, false, false, false⟩ = true)
    ∧ (255 : Nat) ≠ 0 ∧ (254 : Nat) ≠ 0 ∧ (255 : Nat) ≠ 254 :=
  I2CWrite_status_codes ⟨false, 8, false, false, false⟩

/-- C10, witness at a concrete input: zero-length operations on the
all-ACK bus with a one-byte buffer. -/
theorem I2CDeviceBytes_length_zero_witness :
    (I2CDeviceReadBytes allAckBus 0xB0 0x07 0 [5] initState).1.trace
      = [BusEvent.start, BusEvent.writeByte ((0xB0 &&& 0xFE) % 256),
         BusEvent.writeByte (0x07 % 256), BusEvent.restart,
         BusEvent.writeByte ((0xB0 ||| 0x01) % 256), BusEvent.stop]
    ∧ (I2CDeviceReadBytes allAckBus 0xB0 0x07 0 [5] initState).2 = [5]
    ∧ (I2CDeviceWriteBytes allAckBus 0xB0 0x07 0 [5] initState).trace
      = [BusEvent.start, BusEvent.writeByte ((0xB0 &&& 0xFE) % 256),
         BusEvent.writeByte (0x07 % 256), BusEvent.stop] :=
  I2CDeviceBytes_length_zero allAckBus 0xB0 0x07 [5]

end I2CDevice
